import Mathlib

/-!
Verification of the tile-grid adjacency and coordinate-derivation core of the
metadata batch generator (`元数据编辑工具V2.py`, class `MetadataProcessor`).

The Python dictionaries `boundary_data` / `metadata_data` (string keys mapping
to per-tile value lists) are embedded as association lists with Python `dict`
update semantics.  Python `int(...)` parsing, string slicing, the regex-based
filename sanitization and the `set`-based boundary index are embedded as
executable Lean functions over `String` / `Int` / `Finset`.  Fallible steps
(Python exceptions) are embedded with `Except String`.  Spreadsheet and
filesystem I/O are outside the modelled core: the TIFF size probe is an
oracle parameter, and the output writer is represented by the list of output
file names the loop in `_generate_output` would emit.
-/

namespace MetadataTool

/-- Python string slice `s[a:b]` for nonnegative bounds: characters at
positions `a .. b-1`, clamped to the string length. -/
def pySlice (s : String) (a b : Nat) : String :=
  String.mk ((s.data.take b).drop a)

/-- Accumulator loop for decimal-digit parsing. -/
def digitsCore : List Char → Nat → Option Nat
  | [], acc => some acc
  | c :: cs, acc =>
    if c.isDigit then digitsCore cs (acc * 10 + (c.toNat - 48)) else none

/-- Decimal digits to a natural number; `none` on the empty list or on any
non-digit character. -/
def digitsToNat : List Char → Option Nat
  | [] => none
  | c :: cs => digitsCore (c :: cs) 0

/-- Model of Python `int(str)`: an optional sign followed by decimal digits;
`none` (a `ValueError` in Python) otherwise. -/
def pyInt (s : String) : Option Int :=
  match s.data with
  | '-' :: cs => (digitsToNat cs).map (fun n => -(n : Int))
  | '+' :: cs => (digitsToNat cs).map (fun n => (n : Int))
  | cs => (digitsToNat cs).map (fun n => (n : Int))

/-- Python `int(str)` as a fallible computation, with the `ValueError` text. -/
def pyIntE (s : String) : Except String Int :=
  match pyInt s with
  | some n => Except.ok n
  | none => Except.error ("invalid literal for int with base 10: " ++ s)

/-- Effectful map over a list, aborting at the first error, exactly like a
Python list comprehension that can raise. -/
def mapE {α β : Type} (f : α → Except String β) : List α → Except String (List β)
  | [] => Except.ok []
  | a :: l =>
    match f a with
    | Except.error e => Except.error e
    | Except.ok b =>
      match mapE f l with
      | Except.error e => Except.error e
      | Except.ok bs => Except.ok (b :: bs)

/-- A Python `dict` from column names to per-tile value lists, in insertion
order (the shape of `boundary_data` and `metadata_data`). -/
abbrev PyDict := List (String × List String)

/-- Python `d[k]` lookup (as an `Option`). -/
def dictGet : PyDict → String → Option (List String)
  | [], _ => none
  | kv :: d, k => if kv.1 = k then some kv.2 else dictGet d k

/-- Lookup defaulting to the empty list; every use in the embedded pipeline
is at a key that is present, so the default is never observable. -/
def dictGetD (d : PyDict) (k : String) : List String :=
  (dictGet d k).getD []

/-- Python `k in d`. -/
def dictHas : PyDict → String → Bool
  | [], _ => false
  | kv :: d, k => if kv.1 = k then true else dictHas d k

/-- Python `d[k] = v`: replace in place when the key exists, else append. -/
def dictSet : PyDict → String → List String → PyDict
  | [], k, v => [(k, v)]
  | kv :: d, k, v => if kv.1 = k then (k, v) :: d else kv :: dictSet d k v

/-- `MetadataProcessor._extract_metadata`: fixed-offset slicing of each
identifier into row `[0,4)`, column `[7,12)`, band `int(s[7:9])` with a
degree sign, and central meridian `band * 3` with a degree sign; the `time`
column is passed through.  The source parses `s[7:9]` once for `band_number`
and once more for `central_meridian` with the identical result, so the parse
is shared here. -/
def extract_metadata (map_index times : List String) : Except String PyDict :=
  match mapE (fun s => pyIntE (pySlice s 7 9)) map_index with
  | Except.error e => Except.error e
  | Except.ok bands =>
    Except.ok
      [("file_name", map_index),
       ("row_number", map_index.map (fun s => pySlice s 0 4)),
       ("column_number", map_index.map (fun s => pySlice s 7 12)),
       ("band_number", bands.map (fun b => toString b ++ "°")),
       ("central_meridian", bands.map (fun b => toString (b * 3) ++ "°")),
       ("flight_times", times)]

/-- `MetadataProcessor._process_excel` after tabular loading: the sheet is a
dict of columns; both the `MapIndex` and the `time` column are demanded (for
the boundary file as well as the target file), then `_extract_metadata`
runs. -/
def process_excel (t : PyDict) : Except String PyDict :=
  match dictGet t "MapIndex", dictGet t "time" with
  | some mi, some tv => extract_metadata mi tv
  | _, _ => Except.error "Excel文件缺少必要列: MapIndex 或 time"

/-- `MetadataProcessor._add_tif_sizes`: the filesystem probe is external
I/O, abstracted as an oracle from file name to an optional formatted size
string; a missing file yields the sentinel `数据不存在`. -/
def add_tif_sizes (size_of : String → Option String) (md : PyDict) : PyDict :=
  dictSet md "tif_size"
    ((dictGetD md "file_name").map (fun name =>
      match size_of name with
      | some s => s
      | none => "数据不存在"))

/-- `MetadataProcessor._generate_coordinates`: parse the row and column
fields as integers and add the eight corner-axis lists (1000 units per grid
step, each value formatted `f"{v}.00"`) plus the display-name list. -/
def generate_coordinates (md : PyDict) : Except String PyDict :=
  match mapE pyIntE (dictGetD md "row_number") with
  | Except.error e => Except.error e
  | Except.ok row =>
    match mapE pyIntE (dictGetD md "column_number") with
    | Except.error e => Except.error e
    | Except.ok col =>
      Except.ok (dictSet (dictSet (dictSet (dictSet (dictSet (dictSet (dictSet
        (dictSet (dictSet md
          "WS_X" (row.map (fun r => toString (r * 1000) ++ ".00")))
          "WS_Y" (col.map (fun c => toString (c * 1000) ++ ".00")))
          "WN_X" (row.map (fun r => toString ((r + 1) * 1000) ++ ".00")))
          "WN_Y" (col.map (fun c => toString (c * 1000) ++ ".00")))
          "EN_X" (row.map (fun r => toString ((r + 1) * 1000) ++ ".00")))
          "EN_Y" (col.map (fun c => toString ((c + 1) * 1000) ++ ".00")))
          "ES_X" (row.map (fun r => toString (r * 1000) ++ ".00")))
          "ES_Y" (col.map (fun c => toString ((c + 1) * 1000) ++ ".00")))
          "filename" ((dictGetD md "file_name").map (fun name => "文件:" ++ name)))

/-- `MetadataProcessor._generate_filename`: canonical neighbor name
`f"{r}.0-{c}.0"`. -/
def generate_filename (r c : Int) : String :=
  toString r ++ ".0-" ++ toString c ++ ".0"

/-- `MetadataProcessor._get_boundary_coordinates`: parse the boundary row
and column fields and collect the coordinate pairs into a set. -/
def get_boundary_coordinates (bd : PyDict) : Except String (Finset (Int × Int)) :=
  match mapE pyIntE (dictGetD bd "row_number") with
  | Except.error e => Except.error e
  | Except.ok rows =>
    match mapE pyIntE (dictGetD bd "column_number") with
    | Except.error e => Except.error e
    | Except.ok cols => Except.ok (rows.zip cols).toFinset

/-- One tile's `(int(r), int(c))` parse, shared by the target computations of
every direction. -/
def parse_pair (rc : String × String) : Except String (Int × Int) :=
  match pyInt rc.1, pyInt rc.2 with
  | some r, some c => Except.ok (r, c)
  | none, _ => Except.error ("invalid literal for int with base 10: " ++ rc.1)
  | some _, none => Except.error ("invalid literal for int with base 10: " ++ rc.2)

/-- The `target_coord` comprehension of both connection loops:
`(int(r) + dr, int(c) + dc)` over the zipped row/column field lists. -/
def parse_targets (dr dc : Int) (rs cs : List String) : Except String (List (Int × Int)) :=
  mapE (fun rc =>
    match pyInt rc.1, pyInt rc.2 with
    | some r, some c => Except.ok (r + dr, c + dc)
    | none, _ => Except.error ("invalid literal for int with base 10: " ++ rc.1)
    | some _, none => Except.error ("invalid literal for int with base 10: " ++ rc.2))
    (rs.zip cs)

/-- The fixed cardinal direction table of
`_process_directional_connections`, in iteration order. -/
def directional_offsets : List (String × Int × Int) :=
  [("N", 1, 0), ("S", -1, 0), ("E", 0, 1), ("W", 0, -1)]

/-- The fixed diagonal direction table of `_process_diagonal_connections`,
in iteration order. -/
def diagonal_offsets : List (String × Int × Int) :=
  [("WN", 1, -1), ("EN", 1, 1), ("WS", -1, -1), ("ES", -1, 1)]

/-- One iteration of the `_process_directional_connections` loop: compute
the offset targets, then set `Link_<d>` by membership and `filename_<d>` by
membership with the canonical neighbor name. -/
def directional_step (boundary : Finset (Int × Int)) (md : PyDict)
    (dir : String × Int × Int) : Except String PyDict :=
  match parse_targets dir.2.1 dir.2.2 (dictGetD md "row_number") (dictGetD md "column_number") with
  | Except.error e => Except.error e
  | Except.ok target =>
    Except.ok (dictSet
      (dictSet md ("Link_" ++ dir.1)
        (target.map (fun coord => if coord ∈ boundary then "已接" else "自由边")))
      ("filename_" ++ dir.1)
      (target.map (fun coord =>
        if coord ∈ boundary then generate_filename coord.1 coord.2 else "无")))

/-- One iteration of the `_process_diagonal_connections` loop: only the
`filename_<code>` field is set, no link-status field. -/
def diagonal_step (boundary : Finset (Int × Int)) (md : PyDict)
    (dir : String × Int × Int) : Except String PyDict :=
  match parse_targets dir.2.1 dir.2.2 (dictGetD md "row_number") (dictGetD md "column_number") with
  | Except.error e => Except.error e
  | Except.ok target =>
    Except.ok (dictSet md ("filename_" ++ dir.1)
      (target.map (fun coord =>
        if coord ∈ boundary then generate_filename coord.1 coord.2 else "无")))

/-- Fold a fallible step over a direction table, aborting at the first
error, exactly like the Python `for` loops that can raise. -/
def foldE {α : Type} (f : PyDict → α → Except String PyDict) :
    PyDict → List α → Except String PyDict
  | md, [] => Except.ok md
  | md, a :: l =>
    match f md a with
    | Except.error e => Except.error e
    | Except.ok md' => foldE f md' l

/-- `MetadataProcessor._process_directional_connections`. -/
def process_directional_connections (boundary : Finset (Int × Int)) (md : PyDict) :
    Except String PyDict :=
  foldE (directional_step boundary) md directional_offsets

/-- `MetadataProcessor._process_diagonal_connections`. -/
def process_diagonal_connections (boundary : Finset (Int × Int)) (md : PyDict) :
    Except String PyDict :=
  foldE (diagonal_step boundary) md diagonal_offsets

/-- `MetadataProcessor._process_boundary_connections`: boundary index, then
cardinal, then diagonal processing. -/
def process_boundary_connections (bd md : PyDict) : Except String PyDict :=
  match get_boundary_coordinates bd with
  | Except.error e => Except.error e
  | Except.ok boundary =>
    match process_directional_connections boundary md with
    | Except.error e => Except.error e
    | Except.ok md' => process_diagonal_connections boundary md'

/-- Python `str.strip()`: drop whitespace at both ends. -/
def pyStrip (s : String) : String :=
  String.mk (((s.data.dropWhile Char.isWhitespace).reverse.dropWhile Char.isWhitespace).reverse)

/-- The sanitization of `_generate_single_file`:
`re.sub` of the characters in the class to underscores, then `strip()`. -/
def sanitize (s : String) : String :=
  pyStrip (String.mk (s.data.map (fun c =>
    if c ∈ ['\\', '/', '*', '?', ':', '"', '<', '>', '|'] then '_' else c)))

/-- `MetadataProcessor._validate_data_consistency`: every field list must
have the same length (`len(set(lengths.values())) > 1` fails), and the raw
`file_name` list must be duplicate-free (`len(...) != len(set(...))`
fails). -/
def validate_data_consistency (md : PyDict) : Except String Unit :=
  if 1 < (md.map (fun kv => kv.2.length)).toFinset.card then
    Except.error "数据字段长度不一致，请检查输入数据"
  else if (dictGetD md "file_name").length ≠ (dictGetD md "file_name").toFinset.card then
    Except.error "清洗后的文件名存在重复"
  else Except.ok ()

/-- `MetadataProcessor._generate_output`: validate first, then (and only
then) emit one output file per tile, named by the sanitized identifier plus
the output extension.  The result is the list of emitted file names paired
with the raised error, if any: on a validation error nothing is emitted. -/
def generate_output (output_format : String) (md : PyDict) :
    List String × Option String :=
  match validate_data_consistency md with
  | Except.error e => ([], some e)
  | Except.ok _ =>
    ((dictGetD md "file_name").map (fun name => sanitize name ++ output_format), none)

/-- `MetadataProcessor.generate_metadata`: sizes, corner coordinates,
boundary connections, then validated output. -/
def generate_metadata (size_of : String → Option String) (output_format : String)
    (bd md : PyDict) : List String × Option String :=
  match generate_coordinates (add_tif_sizes size_of md) with
  | Except.error e => ([], some e)
  | Except.ok md₂ =>
    match process_boundary_connections bd md₂ with
    | Except.error e => ([], some e)
    | Except.ok md₃ => generate_output output_format md₃

/-! Association-list lemmas for the Python `dict` embedding. -/

theorem dictGet_set_self (m : PyDict) (k : String) (v : List String) :
    dictGet (dictSet m k v) k = some v := by
  induction m with
  | nil => simp [dictSet, dictGet]
  | cons kv m ih =>
    by_cases h : kv.1 = k
    · simp [dictSet, dictGet, h]
    · simp [dictSet, dictGet, h, ih]

theorem dictGet_set_ne {m : PyDict} {k : String} {v : List String} {q : String}
    (h : q ≠ k) : dictGet (dictSet m k v) q = dictGet m q := by
  induction m with
  | nil => simp [dictSet, dictGet, Ne.symm h]
  | cons kv m ih =>
    by_cases hk : kv.1 = k
    · simp [dictSet, dictGet, hk, Ne.symm h]
    · simp [dictSet, dictGet, hk, ih]

theorem dictHas_set_self (m : PyDict) (k : String) (v : List String) :
    dictHas (dictSet m k v) k = true := by
  induction m with
  | nil => simp [dictSet, dictHas]
  | cons kv m ih =>
    by_cases h : kv.1 = k
    · simp [dictSet, dictHas, h]
    · simp [dictSet, dictHas, h, ih]

theorem dictHas_set_ne {m : PyDict} {k : String} {v : List String} {q : String}
    (h : q ≠ k) : dictHas (dictSet m k v) q = dictHas m q := by
  induction m with
  | nil => simp [dictSet, dictHas, Ne.symm h]
  | cons kv m ih =>
    by_cases hk : kv.1 = k
    · simp [dictSet, dictHas, hk, Ne.symm h]
    · simp [dictSet, dictHas, hk, ih]

/-! Key-distinctness facts: the row/column field keys never collide with the
per-direction keys, whatever the direction suffix is. -/

theorem row_ne_link (s : String) : ("row_number" : String) ≠ "Link_" ++ s := by
  intro h
  have h2 : "row_number".data = ("Link_" ++ s).data := congrArg String.data h
  rw [String.data_append] at h2
  have h3 : some 'r' = some 'L' := congrArg List.head? h2
  simp at h3

theorem row_ne_filename (s : String) : ("row_number" : String) ≠ "filename_" ++ s := by
  intro h
  have h2 : "row_number".data = ("filename_" ++ s).data := congrArg String.data h
  rw [String.data_append] at h2
  have h3 : some 'r' = some 'f' := congrArg List.head? h2
  simp at h3

theorem col_ne_link (s : String) : ("column_number" : String) ≠ "Link_" ++ s := by
  intro h
  have h2 : "column_number".data = ("Link_" ++ s).data := congrArg String.data h
  rw [String.data_append] at h2
  have h3 : some 'c' = some 'L' := congrArg List.head? h2
  simp at h3

theorem col_ne_filename (s : String) : ("column_number" : String) ≠ "filename_" ++ s := by
  intro h
  have h2 : "column_number".data = ("filename_" ++ s).data := congrArg String.data h
  rw [String.data_append] at h2
  have h3 : some 'c' = some 'f' := congrArg List.head? h2
  simp at h3

/-! Characterization of the connection loops. -/

/-- The per-direction link-status list, as produced by
`_process_directional_connections` from the parsed coordinate pairs. -/
def linkList (B : Finset (Int × Int)) (ps : List (Int × Int)) (dr dc : Int) : List String :=
  ps.map (fun p => if (p.1 + dr, p.2 + dc) ∈ B then "已接" else "自由边")

/-- The per-direction neighbor-filename list, as produced by both connection
loops from the parsed coordinate pairs. -/
def nameList (B : Finset (Int × Int)) (ps : List (Int × Int)) (dr dc : Int) : List String :=
  ps.map (fun p =>
    if (p.1 + dr, p.2 + dc) ∈ B then generate_filename (p.1 + dr) (p.2 + dc) else "无")

theorem parse_targets_aux (dr dc : Int) :
    ∀ (l : List (String × String)) (ps : List (Int × Int)),
      mapE parse_pair l = Except.ok ps →
      mapE (fun rc =>
        match pyInt rc.1, pyInt rc.2 with
        | some r, some c => Except.ok (r + dr, c + dc)
        | none, _ => Except.error ("invalid literal for int with base 10: " ++ rc.1)
        | some _, none => Except.error ("invalid literal for int with base 10: " ++ rc.2)) l
        = Except.ok (ps.map (fun p => (p.1 + dr, p.2 + dc))) := by
  intro l
  induction l with
  | nil =>
    intro ps hp
    simp only [mapE, Except.ok.injEq] at hp
    simp [mapE, ← hp]
  | cons rc l ih =>
    intro ps hp
    rw [mapE] at hp
    cases h1 : pyInt rc.1 with
    | none => rw [parse_pair] at hp; simp [h1] at hp
    | some r =>
      cases h2 : pyInt rc.2 with
      | none => rw [parse_pair] at hp; simp [h1, h2] at hp
      | some c =>
        rw [parse_pair] at hp
        simp only [h1, h2] at hp
        cases h3 : mapE parse_pair l with
        | error e => rw [h3] at hp; simp at hp
        | ok ps2 =>
          rw [h3] at hp
          simp only [Except.ok.injEq] at hp
          subst hp
          rw [mapE]
          simp only [h1, h2, ih ps2 h3, List.map_cons]

theorem parse_targets_ok (dr dc : Int) {rs cs : List String} {ps : List (Int × Int)}
    (hp : mapE parse_pair (rs.zip cs) = Except.ok ps) :
    parse_targets dr dc rs cs = Except.ok (ps.map (fun p => (p.1 + dr, p.2 + dc))) :=
  parse_targets_aux dr dc (rs.zip cs) ps hp

theorem directional_step_ok (B : Finset (Int × Int)) (md : PyDict) (d : String)
    (dr dc : Int) {rs cs : List String} {ps : List (Int × Int)}
    (hr : dictGet md "row_number" = some rs)
    (hc : dictGet md "column_number" = some cs)
    (hp : mapE parse_pair (rs.zip cs) = Except.ok ps) :
    directional_step B md (d, dr, dc) =
      Except.ok (dictSet (dictSet md ("Link_" ++ d) (linkList B ps dr dc))
        ("filename_" ++ d) (nameList B ps dr dc)) := by
  simp only [directional_step, dictGetD, hr, hc, Option.getD_some,
    parse_targets_ok dr dc hp, linkList, nameList, List.map_map, Function.comp_def]

theorem diagonal_step_ok (B : Finset (Int × Int)) (md : PyDict) (d : String)
    (dr dc : Int) {rs cs : List String} {ps : List (Int × Int)}
    (hr : dictGet md "row_number" = some rs)
    (hc : dictGet md "column_number" = some cs)
    (hp : mapE parse_pair (rs.zip cs) = Except.ok ps) :
    diagonal_step B md (d, dr, dc) =
      Except.ok (dictSet md ("filename_" ++ d) (nameList B ps dr dc)) := by
  simp only [diagonal_step, dictGetD, hr, hc, Option.getD_some,
    parse_targets_ok dr dc hp, nameList, List.map_map, Function.comp_def]

theorem foldE_directional (B : Finset (Int × Int)) {rs cs : List String}
    {ps : List (Int × Int)} (hp : mapE parse_pair (rs.zip cs) = Except.ok ps) :
    ∀ (dirs : List (String × Int × Int)) (md : PyDict),
      dictGet md "row_number" = some rs → dictGet md "column_number" = some cs →
      foldE (directional_step B) md dirs = Except.ok (dirs.foldl (fun m dir =>
        dictSet (dictSet m ("Link_" ++ dir.1) (linkList B ps dir.2.1 dir.2.2))
          ("filename_" ++ dir.1) (nameList B ps dir.2.1 dir.2.2)) md) := by
  intro dirs
  induction dirs with
  | nil => intro md hr hc; simp [foldE]
  | cons dir rest ih =>
    intro md hr hc
    obtain ⟨d, dr, dc⟩ := dir
    have hstep := directional_step_ok B md d dr dc hr hc hp
    have hr2 : dictGet (dictSet (dictSet md ("Link_" ++ d) (linkList B ps dr dc))
        ("filename_" ++ d) (nameList B ps dr dc)) "row_number" = some rs := by
      rw [dictGet_set_ne (row_ne_filename d), dictGet_set_ne (row_ne_link d)]; exact hr
    have hc2 : dictGet (dictSet (dictSet md ("Link_" ++ d) (linkList B ps dr dc))
        ("filename_" ++ d) (nameList B ps dr dc)) "column_number" = some cs := by
      rw [dictGet_set_ne (col_ne_filename d), dictGet_set_ne (col_ne_link d)]; exact hc
    rw [foldE, hstep, List.foldl_cons]
    exact ih _ hr2 hc2

theorem foldE_diagonal (B : Finset (Int × Int)) {rs cs : List String}
    {ps : List (Int × Int)} (hp : mapE parse_pair (rs.zip cs) = Except.ok ps) :
    ∀ (dirs : List (String × Int × Int)) (md : PyDict),
      dictGet md "row_number" = some rs → dictGet md "column_number" = some cs →
      foldE (diagonal_step B) md dirs = Except.ok (dirs.foldl (fun m dir =>
        dictSet m ("filename_" ++ dir.1) (nameList B ps dir.2.1 dir.2.2)) md) := by
  intro dirs
  induction dirs with
  | nil => intro md hr hc; simp [foldE]
  | cons dir rest ih =>
    intro md hr hc
    obtain ⟨d, dr, dc⟩ := dir
    have hstep := diagonal_step_ok B md d dr dc hr hc hp
    have hr2 : dictGet (dictSet md ("filename_" ++ d) (nameList B ps dr dc))
        "row_number" = some rs := by
      rw [dictGet_set_ne (row_ne_filename d)]; exact hr
    have hc2 : dictGet (dictSet md ("filename_" ++ d) (nameList B ps dr dc))
        "column_number" = some cs := by
      rw [dictGet_set_ne (col_ne_filename d)]; exact hc
    rw [foldE, hstep, List.foldl_cons]
    exact ih _ hr2 hc2

/-- The canonical neighbor name is never the absence sentinel. -/
theorem generate_filename_ne_none (r c : Int) : generate_filename r c ≠ "无" := by
  intro h
  simp only [generate_filename] at h
  have h2 := congrArg String.length h
  rw [String.length_append, String.length_append, String.length_append] at h2
  have h3 : (".0-" : String).length = 3 := rfl
  have h4 : (".0" : String).length = 2 := rfl
  have h5 : ("无" : String).length = 1 := rfl
  omega

/-- A list enumerates pairwise-distinct values exactly when its Python
`set` has as many elements as the list. -/
theorem toFinset_card_eq_length_iff {α : Type} [DecidableEq α] (l : List α) :
    l.toFinset.card = l.length ↔ l.Nodup := by
  simpa using Multiset.toFinset_card_eq_card_iff_nodup (m := (l : Multiset α))

/-! Claim theorems. -/

/-- C1: for every tile with parsed grid coordinate (r, c) and every cardinal
direction in N:(+1,0), S:(-1,0), E:(0,+1), W:(0,-1), the resolver computes
target = (r+dr, c+dc) and sets the link status to 已接 (connected) with
neighbor filename `{target.row}.0-{target.column}.0` when the target is in
the boundary coordinate set, and to 自由边 (free edge) with filename 无
(none) when it is not. -/
theorem cardinal_adjacency_resolution (B : Finset (Int × Int)) (md : PyDict)
    (rs cs : List String) (ps : List (Int × Int))
    (hr : dictGet md "row_number" = some rs)
    (hc : dictGet md "column_number" = some cs)
    (hp : mapE parse_pair (rs.zip cs) = Except.ok ps)
    (d : String) (dr dc : Int) (hd : (d, dr, dc) ∈ directional_offsets) :
    ∃ md', process_directional_connections B md = Except.ok md' ∧
      dictGet md' ("Link_" ++ d) =
        some (ps.map (fun p => if (p.1 + dr, p.2 + dc) ∈ B then "已接" else "自由边")) ∧
      dictGet md' ("filename_" ++ d) =
        some (ps.map (fun p =>
          if (p.1 + dr, p.2 + dc) ∈ B then generate_filename (p.1 + dr) (p.2 + dc)
          else "无")) := by
  have h := foldE_directional B hp directional_offsets md hr hc
  simp only [directional_offsets, List.mem_cons, List.not_mem_nil, or_false,
    Prod.mk.injEq] at hd
  refine ⟨_, h, ?_, ?_⟩ <;>
    (rcases hd with ⟨rfl, rfl, rfl⟩ | ⟨rfl, rfl, rfl⟩ | ⟨rfl, rfl, rfl⟩ | ⟨rfl, rfl, rfl⟩ <;>
      simp [directional_offsets, List.foldl, dictGet_set_ne, dictGet_set_self,
        linkList, nameList])

/-- C1 witness: tile (12, 51) with boundary containing (13, 51): the north
direction resolves to connected with neighbor name 13.0-51.0. -/
theorem cardinal_adjacency_resolution_witness :
    ∃ md', process_directional_connections {((13 : Int), (51 : Int))}
        [("row_number", ["12"]), ("column_number", ["51"])] = Except.ok md' ∧
      dictGet md' ("Link_" ++ "N") = some ["已接"] ∧
      dictGet md' ("filename_" ++ "N") = some ["13.0-51.0"] := by
  obtain ⟨md', h1, h2, h3⟩ := cardinal_adjacency_resolution
    {((13 : Int), (51 : Int))} [("row_number", ["12"]), ("column_number", ["51"])]
    ["12"] ["51"] [((12 : Int), (51 : Int))] rfl rfl rfl "N" 1 0 (by decide)
  exact ⟨md', h1, h2, h3⟩

/-- C10: for every tile index and every cardinal direction, the link-status
entry is 已接 (connected) exactly when the neighbor-filename entry is not 无
(none): both lists are derived from the same membership test against the
same boundary index. -/
theorem cardinal_link_filename_agree (B : Finset (Int × Int)) (md : PyDict)
    (rs cs : List String) (ps : List (Int × Int))
    (hr : dictGet md "row_number" = some rs)
    (hc : dictGet md "column_number" = some cs)
    (hp : mapE parse_pair (rs.zip cs) = Except.ok ps)
    (d : String) (dr dc : Int) (hd : (d, dr, dc) ∈ directional_offsets) :
    ∃ md', process_directional_connections B md = Except.ok md' ∧
      dictGet md' ("Link_" ++ d) = some (linkList B ps dr dc) ∧
      dictGet md' ("filename_" ++ d) = some (nameList B ps dr dc) ∧
      (linkList B ps dr dc).length = (nameList B ps dr dc).length ∧
      ∀ i (h1 : i < (linkList B ps dr dc).length) (h2 : i < (nameList B ps dr dc).length),
        (linkList B ps dr dc).get ⟨i, h1⟩ = "已接" ↔
          (nameList B ps dr dc).get ⟨i, h2⟩ ≠ "无" := by
  have h := foldE_directional B hp directional_offsets md hr hc
  simp only [directional_offsets, List.mem_cons, List.not_mem_nil, or_false,
    Prod.mk.injEq] at hd
  refine ⟨_, h, ?_, ?_, ?_, ?_⟩
  · rcases hd with ⟨rfl, rfl, rfl⟩ | ⟨rfl, rfl, rfl⟩ | ⟨rfl, rfl, rfl⟩ | ⟨rfl, rfl, rfl⟩ <;>
      simp [directional_offsets, List.foldl, dictGet_set_ne, dictGet_set_self]
  · rcases hd with ⟨rfl, rfl, rfl⟩ | ⟨rfl, rfl, rfl⟩ | ⟨rfl, rfl, rfl⟩ | ⟨rfl, rfl, rfl⟩ <;>
      simp [directional_offsets, List.foldl, dictGet_set_ne, dictGet_set_self]
  · simp [linkList, nameList]
  · intro i h1 h2
    have hi : i < ps.length := by simpa [linkList] using h1
    simp only [linkList, nameList, List.get_eq_getElem, List.getElem_map]
    by_cases hm : ((ps[i]).1 + dr, (ps[i]).2 + dc) ∈ B
    · simp [hm, generate_filename_ne_none]
    · simp [hm]

/-- C10 witness: tile (12, 51), boundary containing (13, 51), direction N:
the connected status agrees with the non-none filename at index 0. -/
theorem cardinal_link_filename_agree_witness :
    ∃ md', process_directional_connections {((13 : Int), (51 : Int))}
        [("row_number", ["12"]), ("column_number", ["51"])] = Except.ok md' ∧
      dictGet md' ("Link_" ++ "N") = some ["已接"] ∧
      dictGet md' ("filename_" ++ "N") = some ["13.0-51.0"] ∧
      (("已接" : String) = "已接" ↔ ("13.0-51.0" : String) ≠ "无") := by
  obtain ⟨md', h1, h2, h3, h4, h5⟩ := cardinal_link_filename_agree
    {((13 : Int), (51 : Int))} [("row_number", ["12"]), ("column_number", ["51"])]
    ["12"] ["51"] [((12 : Int), (51 : Int))] rfl rfl rfl "N" 1 0 (by decide)
  exact ⟨md', h1, h2, h3, h5 0 (by decide) (by decide)⟩

/-- C2: for every tile with parsed row r and column c, the corner fields are
WS = (r*1000, c*1000), WN = ((r+1)*1000, c*1000), EN = ((r+1)*1000,
(c+1)*1000), ES = (r*1000, (c+1)*1000), and each of the eight axis values is
the decimal rendering of the integer followed by exactly the two fractional
digits ".00". -/
theorem corner_coordinates_resolution (md : PyDict) (rs cs : List String)
    (row col : List Int)
    (hr : dictGet md "row_number" = some rs)
    (hc : dictGet md "column_number" = some cs)
    (hrow : mapE pyIntE rs = Except.ok row)
    (hcol : mapE pyIntE cs = Except.ok col) :
    ∃ md', generate_coordinates md = Except.ok md' ∧
      dictGet md' "WS_X" = some (row.map (fun r => toString (r * 1000) ++ ".00")) ∧
      dictGet md' "WS_Y" = some (col.map (fun c => toString (c * 1000) ++ ".00")) ∧
      dictGet md' "WN_X" = some (row.map (fun r => toString ((r + 1) * 1000) ++ ".00")) ∧
      dictGet md' "WN_Y" = some (col.map (fun c => toString (c * 1000) ++ ".00")) ∧
      dictGet md' "EN_X" = some (row.map (fun r => toString ((r + 1) * 1000) ++ ".00")) ∧
      dictGet md' "EN_Y" = some (col.map (fun c => toString ((c + 1) * 1000) ++ ".00")) ∧
      dictGet md' "ES_X" = some (row.map (fun r => toString (r * 1000) ++ ".00")) ∧
      dictGet md' "ES_Y" = some (col.map (fun c => toString ((c + 1) * 1000) ++ ".00")) := by
  refine ⟨_, by simp only [generate_coordinates, dictGetD, hr, hc, Option.getD_some,
    hrow, hcol]; rfl, ?_, ?_, ?_, ?_, ?_, ?_, ?_, ?_⟩ <;>
    simp [dictGet_set_ne, dictGet_set_self]

/-- C2 witness: the spec example (r=12, c=34) gives WS=(12000.00, 34000.00),
WN=(13000.00, 34000.00), EN=(13000.00, 35000.00), ES=(12000.00, 35000.00). -/
theorem corner_coordinates_resolution_witness :
    ∃ md', generate_coordinates
        [("file_name", ["f"]), ("row_number", ["0012"]), ("column_number", ["00034"])] =
        Except.ok md' ∧
      dictGet md' "WS_X" = some ["12000.00"] ∧
      dictGet md' "WS_Y" = some ["34000.00"] ∧
      dictGet md' "WN_X" = some ["13000.00"] ∧
      dictGet md' "WN_Y" = some ["34000.00"] ∧
      dictGet md' "EN_X" = some ["13000.00"] ∧
      dictGet md' "EN_Y" = some ["35000.00"] ∧
      dictGet md' "ES_X" = some ["12000.00"] ∧
      dictGet md' "ES_Y" = some ["35000.00"] := by
  obtain ⟨md', h0, h1, h2, h3, h4, h5, h6, h7, h8⟩ := corner_coordinates_resolution
    [("file_name", ["f"]), ("row_number", ["0012"]), ("column_number", ["00034"])]
    ["0012"] ["00034"] [(12 : Int)] [(34 : Int)] rfl rfl rfl rfl
  exact ⟨md', h0, h1, h2, h3, h4, h5, h6, h7, h8⟩

/-- C7: for every identifier whose band substring parses, the stored band is
the integer value of characters [7,9) (with a degree sign) and the central
meridian is that band times 3 (with a degree sign); the row field is
characters [0,4) and the full column field is characters [7,12). -/
theorem identifier_band_meridian (map_index times : List String) (bands : List Int)
    (hb : mapE (fun s => pyIntE (pySlice s 7 9)) map_index = Except.ok bands) :
    ∃ md, extract_metadata map_index times = Except.ok md ∧
      dictGet md "row_number" = some (map_index.map (fun s => pySlice s 0 4)) ∧
      dictGet md "column_number" = some (map_index.map (fun s => pySlice s 7 12)) ∧
      dictGet md "band_number" = some (bands.map (fun b => toString b ++ "°")) ∧
      dictGet md "central_meridian" = some (bands.map (fun b => toString (b * 3) ++ "°")) := by
  refine ⟨_, by simp only [extract_metadata, hb]; rfl, ?_, ?_, ?_, ?_⟩ <;> simp [dictGet]

/-- C7 witness: identifier 0012abc51000 has band substring 51 at [7,9),
giving band 51° and central meridian 153°, row 0012 and column field
51000. -/
theorem identifier_band_meridian_witness :
    ∃ md, extract_metadata ["0012abc51000"] ["t"] = Except.ok md ∧
      dictGet md "row_number" = some ["0012"] ∧
      dictGet md "column_number" = some ["51000"] ∧
      dictGet md "band_number" = some ["51°"] ∧
      dictGet md "central_meridian" = some ["153°"] := by
  obtain ⟨md, h0, h1, h2, h3, h4⟩ := identifier_band_meridian
    ["0012abc51000"] ["t"] [(51 : Int)] rfl
  exact ⟨md, h0, h1, h2, h3, h4⟩

/-- Characterization of the full `_process_boundary_connections` chain:
cardinal fields are added for the four cardinal directions, then filename
fields for the four diagonals. -/
theorem process_boundary_ok (bd md : PyDict) (B : Finset (Int × Int))
    (rs cs : List String) (ps : List (Int × Int))
    (hb : get_boundary_coordinates bd = Except.ok B)
    (hr : dictGet md "row_number" = some rs)
    (hc : dictGet md "column_number" = some cs)
    (hp : mapE parse_pair (rs.zip cs) = Except.ok ps) :
    process_boundary_connections bd md = Except.ok
      (diagonal_offsets.foldl (fun m dir =>
        dictSet m ("filename_" ++ dir.1) (nameList B ps dir.2.1 dir.2.2))
        (directional_offsets.foldl (fun m dir =>
          dictSet (dictSet m ("Link_" ++ dir.1) (linkList B ps dir.2.1 dir.2.2))
            ("filename_" ++ dir.1) (nameList B ps dir.2.1 dir.2.2)) md)) := by
  have h1 := foldE_directional B hp directional_offsets md hr hc
  have hr1 : dictGet (directional_offsets.foldl (fun m dir =>
      dictSet (dictSet m ("Link_" ++ dir.1) (linkList B ps dir.2.1 dir.2.2))
        ("filename_" ++ dir.1) (nameList B ps dir.2.1 dir.2.2)) md)
      "row_number" = some rs := by
    simp [directional_offsets, List.foldl, dictGet_set_ne, hr]
  have hc1 : dictGet (directional_offsets.foldl (fun m dir =>
      dictSet (dictSet m ("Link_" ++ dir.1) (linkList B ps dir.2.1 dir.2.2))
        ("filename_" ++ dir.1) (nameList B ps dir.2.1 dir.2.2)) md)
      "column_number" = some cs := by
    simp [directional_offsets, List.foldl, dictGet_set_ne, hc]
  have h2 := foldE_diagonal B hp diagonal_offsets _ hr1 hc1
  simp only [process_boundary_connections, hb, process_directional_connections, h1,
    process_diagonal_connections, h2]

/-- C3: for every tile, each diagonal direction WN:(+1,-1), EN:(+1,+1),
WS:(-1,-1), ES:(-1,+1) contributes only a neighbor-filename field (by the
membership rule, with 无 when absent) and no link-status field, while each
cardinal direction contributes both a link-status and a filename field. -/
theorem diagonal_filename_only (bd md : PyDict) (B : Finset (Int × Int))
    (rs cs : List String) (ps : List (Int × Int))
    (hb : get_boundary_coordinates bd = Except.ok B)
    (hr : dictGet md "row_number" = some rs)
    (hc : dictGet md "column_number" = some cs)
    (hp : mapE parse_pair (rs.zip cs) = Except.ok ps)
    (hfresh : dictHas md "Link_WN" = false ∧ dictHas md "Link_EN" = false ∧
      dictHas md "Link_WS" = false ∧ dictHas md "Link_ES" = false) :
    ∃ md', process_boundary_connections bd md = Except.ok md' ∧
      (∀ q ∈ diagonal_offsets,
        dictGet md' ("filename_" ++ q.1) =
          some (ps.map (fun p =>
            if (p.1 + q.2.1, p.2 + q.2.2) ∈ B then
              generate_filename (p.1 + q.2.1) (p.2 + q.2.2) else "无")) ∧
        dictHas md' ("Link_" ++ q.1) = false) ∧
      (∀ q ∈ directional_offsets,
        dictHas md' ("Link_" ++ q.1) = true ∧
        dictHas md' ("filename_" ++ q.1) = true) := by
  obtain ⟨hf1, hf2, hf3, hf4⟩ := hfresh
  refine ⟨_, process_boundary_ok bd md B rs cs ps hb hr hc hp, ?_, ?_⟩
  · intro q hq
    simp only [diagonal_offsets, List.mem_cons, List.not_mem_nil, or_false] at hq
    rcases hq with rfl | rfl | rfl | rfl <;>
      exact ⟨by simp [diagonal_offsets, directional_offsets, List.foldl,
          dictGet_set_ne, dictGet_set_self, nameList],
        by simp [diagonal_offsets, directional_offsets, List.foldl,
          dictHas_set_ne, hf1, hf2, hf3, hf4]⟩
  · intro q hq
    simp only [directional_offsets, List.mem_cons, List.not_mem_nil, or_false] at hq
    rcases hq with rfl | rfl | rfl | rfl <;>
      exact ⟨by simp [diagonal_offsets, directional_offsets, List.foldl,
          dictHas_set_ne, dictHas_set_self],
        by simp [diagonal_offsets, directional_offsets, List.foldl,
          dictHas_set_ne, dictHas_set_self]⟩

/-- C3 witness: tile (12, 51) with boundary containing (13, 52): the EN
diagonal resolves to filename 13.0-52.0 with no Link_EN field, while the
cardinal N direction carries both fields. -/
theorem diagonal_filename_only_witness :
    ∃ md', process_boundary_connections
        [("row_number", ["13"]), ("column_number", ["52"])]
        [("row_number", ["12"]), ("column_number", ["51"])] = Except.ok md' ∧
      dictGet md' ("filename_" ++ "EN") = some ["13.0-52.0"] ∧
      dictHas md' ("Link_" ++ "EN") = false ∧
      dictHas md' ("Link_" ++ "N") = true ∧
      dictHas md' ("filename_" ++ "N") = true := by
  obtain ⟨md', h0, h1, h2⟩ := diagonal_filename_only
    [("row_number", ["13"]), ("column_number", ["52"])]
    [("row_number", ["12"]), ("column_number", ["51"])]
    ([((13 : Int), (52 : Int))].toFinset)
    ["12"] ["51"] [((12 : Int), (51 : Int))] rfl rfl rfl rfl
    ⟨rfl, rfl, rfl, rfl⟩
  obtain ⟨he1, he2⟩ := h1 ("EN", 1, 1) (by decide)
  obtain ⟨hn1, hn2⟩ := h2 ("N", 1, 0) (by decide)
  exact ⟨md', h0, he1, he2, hn1, hn2⟩

/-- C9: the boundary index is the set of parsed coordinate pairs, so
rebuilding it is deterministic and its membership depends only on the set of
distinct pairs in the input: duplicated boundary rows collapse to the same
set. -/
theorem boundary_index_set_semantics (b1 b2 : PyDict)
    (rs1 cs1 rs2 cs2 : List String) (rows1 cols1 rows2 cols2 : List Int)
    (hr1 : dictGet b1 "row_number" = some rs1)
    (hc1 : dictGet b1 "column_number" = some cs1)
    (hrow1 : mapE pyIntE rs1 = Except.ok rows1)
    (hcol1 : mapE pyIntE cs1 = Except.ok cols1)
    (hr2 : dictGet b2 "row_number" = some rs2)
    (hc2 : dictGet b2 "column_number" = some cs2)
    (hrow2 : mapE pyIntE rs2 = Except.ok rows2)
    (hcol2 : mapE pyIntE cs2 = Except.ok cols2) :
    get_boundary_coordinates b1 = Except.ok (rows1.zip cols1).toFinset ∧
    ((rows1.zip cols1).toFinset = (rows2.zip cols2).toFinset →
      get_boundary_coordinates b1 = get_boundary_coordinates b2) := by
  have h1 : get_boundary_coordinates b1 = Except.ok (rows1.zip cols1).toFinset := by
    simp only [get_boundary_coordinates, dictGetD, hr1, hc1, Option.getD_some,
      hrow1, hcol1]
  have h2 : get_boundary_coordinates b2 = Except.ok (rows2.zip cols2).toFinset := by
    simp only [get_boundary_coordinates, dictGetD, hr2, hc2, Option.getD_some,
      hrow2, hcol2]
  exact ⟨h1, fun hset => by rw [h1, h2, hset]⟩

/-- C9 witness: a boundary input listing the pair (1, 2) twice builds the
same index as one listing it once. -/
theorem boundary_index_set_semantics_witness :
    get_boundary_coordinates [("row_number", ["1", "1"]), ("column_number", ["2", "2"])] =
      get_boundary_coordinates [("row_number", ["1"]), ("column_number", ["2"])] := by
  have h := boundary_index_set_semantics
    [("row_number", ["1", "1"]), ("column_number", ["2", "2"])]
    [("row_number", ["1"]), ("column_number", ["2"])]
    ["1", "1"] ["2", "2"] ["1"] ["2"]
    [(1 : Int), 1] [(2 : Int), 2] [(1 : Int)] [(2 : Int)]
    rfl rfl rfl rfl rfl rfl rfl rfl
  exact h.2 (by decide)

/-- C6: validation is the gate of the output step: when all derivation steps
succeed and the record validator raises (inconsistent field lengths or
duplicate identifiers), the whole batch aborts with that error and the list
of emitted output files is empty. -/
theorem validator_error_aborts_batch (size_of : String → Option String)
    (fmt : String) (bd md md2 md3 : PyDict) (e : String)
    (h1 : generate_coordinates (add_tif_sizes size_of md) = Except.ok md2)
    (h2 : process_boundary_connections bd md2 = Except.ok md3)
    (h3 : validate_data_consistency md3 = Except.error e) :
    generate_metadata size_of fmt bd md = ([], some e) := by
  simp only [generate_metadata, h1, h2, generate_output, h3]

/-- C6 witness: a target batch with a duplicated identifier runs through all
derivation steps and is rejected by the validator with no emitted output. -/
theorem validator_error_aborts_batch_witness :
    generate_metadata (fun _ => none) ".xlsx"
      [("row_number", ["13"]), ("column_number", ["51"])]
      [("file_name", ["0012aaa00051", "0012aaa00051"]),
       ("row_number", ["0012", "0012"]), ("column_number", ["00051", "00051"]),
       ("band_number", ["0°", "0°"]), ("central_meridian", ["0°", "0°"]),
       ("flight_times", ["t", "t"])] = ([], some "清洗后的文件名存在重复") :=
  validator_error_aborts_batch (fun _ => none) ".xlsx"
    [("row_number", ["13"]), ("column_number", ["51"])] _ _ _ _ rfl rfl rfl

/-- C4 counterexample: the identifiers a?b and a*b are distinct but sanitize
to the same output name a_b, and the validator nevertheless accepts the
batch, because it compares the raw identifiers only. -/
theorem sanitized_collision_passes_validation :
    sanitize "a?b" = sanitize "a*b" ∧ ("a?b" : String) ≠ "a*b" ∧
    validate_data_consistency [("file_name", ["a?b", "a*b"])] = Except.ok () := by
  exact ⟨rfl, by decide, rfl⟩

/-- C4 amended: the validator raises the duplicate-identifier error exactly
when two tiles share an identical raw identifier (given consistent field
lengths); identifier collisions that arise only after sanitization are not
detected. -/
theorem duplicate_raw_identifier_validation (md : PyDict) (names : List String)
    (hlen : ¬ 1 < (md.map (fun kv => kv.2.length)).toFinset.card)
    (h : dictGet md "file_name" = some names) :
    validate_data_consistency md = Except.error "清洗后的文件名存在重复" ↔
      ¬ names.Nodup := by
  rw [validate_data_consistency, if_neg hlen]
  simp only [dictGetD, h, Option.getD_some]
  by_cases hd : names.length ≠ names.toFinset.card
  · rw [if_pos hd]
    have hnd : ¬ names.Nodup := fun hn =>
      hd ((toFinset_card_eq_length_iff names).mpr hn).symm
    simp [hnd]
  · rw [if_neg hd]
    push_neg at hd
    have hnd : names.Nodup := (toFinset_card_eq_length_iff names).mp hd.symm
    simp [hnd]

/-- C4 amended witness: a batch with the same raw identifier twice is
rejected with the duplicate error. -/
theorem duplicate_raw_identifier_validation_witness :
    validate_data_consistency [("file_name", ["x", "x"])] =
      Except.error "清洗后的文件名存在重复" :=
  (duplicate_raw_identifier_validation [("file_name", ["x", "x"])] ["x", "x"]
    (by decide) rfl).mpr (by decide)

/-- C5: code-bug evidence.  The identifier 00120510 (8 characters, shorter
than the required 12) is not rejected: extraction silently produces the
truncated column field "0" and band 0°.  The identifier 0012051 (7
characters) makes the whole extraction fail, aborting the entire batch
rather than only that tile. -/
theorem short_identifier_not_rejected :
    (∃ md, extract_metadata ["00120510"] ["t"] = Except.ok md ∧
      dictGet md "column_number" = some ["0"] ∧
      dictGet md "band_number" = some ["0°"]) ∧
    extract_metadata ["0012051"] ["t"] =
      Except.error "invalid literal for int with base 10: " := by
  exact ⟨⟨_, rfl, rfl, rfl⟩, rfl⟩

/-- C8 counterexample: a boundary table exposing only the identifier column
is rejected, because the loader also demands the time column. -/
theorem boundary_identifier_only_rejected :
    process_excel [("MapIndex", ["001200051000"])] =
      Except.error "Excel文件缺少必要列: MapIndex 或 time" := rfl

/-- C8 amended: loading a boundary table requires both the MapIndex and the
time column; given both (and parsable identifiers) it succeeds, any extra
columns are ignored, and the boundary index built from the result depends
only on the identifier column. -/
theorem boundary_loading_columns (t : PyDict) (mi tv : List String)
    (bands : List Int)
    (hmi : dictGet t "MapIndex" = some mi)
    (htv : dictGet t "time" = some tv)
    (hb : mapE (fun s => pyIntE (pySlice s 7 9)) mi = Except.ok bands) :
    ∃ md, process_excel t = Except.ok md ∧
      process_excel t = process_excel [("MapIndex", mi), ("time", tv)] ∧
      ∀ tv2 : List String, ∃ md2,
        process_excel [("MapIndex", mi), ("time", tv2)] = Except.ok md2 ∧
        get_boundary_coordinates md2 = get_boundary_coordinates md := by
  have hex : ∀ ts : List String, extract_metadata mi ts = Except.ok
      [("file_name", mi),
       ("row_number", mi.map (fun s => pySlice s 0 4)),
       ("column_number", mi.map (fun s => pySlice s 7 12)),
       ("band_number", bands.map (fun b => toString b ++ "°")),
       ("central_meridian", bands.map (fun b => toString (b * 3) ++ "°")),
       ("flight_times", ts)] := fun ts => by simp only [extract_metadata, hb]
  have hpe : process_excel t = extract_metadata mi tv := by
    simp only [process_excel, hmi, htv]
  have hpe2 : ∀ ts : List String,
      process_excel [("MapIndex", mi), ("time", ts)] = extract_metadata mi ts :=
    fun ts => by simp [process_excel, dictGet]
  refine ⟨_, hpe.trans (hex tv), by rw [hpe, hpe2 tv], ?_⟩
  intro tv2
  refine ⟨_, (hpe2 tv2).trans (hex tv2), ?_⟩
  simp [get_boundary_coordinates, dictGetD, dictGet]

/-- C8 amended witness: a table with an extra column and both required
columns loads, and equals the load of the two required columns alone. -/
theorem boundary_loading_columns_witness :
    ∃ md, process_excel
        [("extra", ["e"]), ("MapIndex", ["0012abc51000"]), ("time", ["t1"])] =
        Except.ok md ∧
      process_excel [("extra", ["e"]), ("MapIndex", ["0012abc51000"]), ("time", ["t1"])] =
        process_excel [("MapIndex", ["0012abc51000"]), ("time", ["t1"])] := by
  obtain ⟨md, h1, h2, h3⟩ := boundary_loading_columns
    [("extra", ["e"]), ("MapIndex", ["0012abc51000"]), ("time", ["t1"])]
    ["0012abc51000"] ["t1"] [(51 : Int)] rfl rfl rfl
  exact ⟨md, h1, h2⟩

end MetadataTool
